/-
Verification of the spaced-repetition scheduling engine of TDLOG_project.

Shallow embedding of `src/anki_algorithm.py` (SM-2 style scheduler),
`piocher_carte` from `src/app.py` (card selector) and
`get_user_flashcard_counts` from `src/database.py` (aggregate counts).

Modelling conventions:
- Python floats are modelled as exact rationals `ℚ` (all constants in the
  source are decimal literals that are exact in this range of use).
- Timestamps (`datetime`) are rationals counted in minutes;
  `timedelta(minutes=m)` adds `m`, `timedelta(days=d)` adds `1440 * d`.
- The `user_progress.due_date` column stores `isoformat()` TEXT; the count
  queries of `database.py` compare it with SQLite's `datetime('now')` TEXT
  under BINARY collation, modelled byte-by-byte (`isoformatBytes`,
  `sqliteNowBytes`, `bytesLe`).
- The ambient clock reads (`datetime.now()` inside the functions) are
  modelled by an explicit parameter `now`, one value per invocation.
- Python `int(x)` truncates toward zero: `pyTrunc`.
- Python list indexing (negative indices wrap, out of range raises
  IndexError) is `pyIndex`, with `none` standing for the exception.
- A function that can raise an uncaught exception returns `Option`.
-/

import Mathlib

/- The Batteries `Rat` arithmetic operations are `@[irreducible]`, which
blocks `decide` on concrete rational computations; the kernel itself
reduces them fine.  Restore default reducibility locally. -/
set_option allowUnsafeReducibility true
attribute [local semireducible] Rat.add Rat.mul Rat.sub Rat.inv Rat.div
  Rat.ofScientific Rat.neg Rat.normalize Rat.blt

set_option maxRecDepth 10000

/-- Python `int(q)`: truncation of a float toward zero. -/
def pyTrunc (q : ℚ) : ℤ :=
  q.num.sign * ((q.num.natAbs / q.den : ℕ) : ℤ)

/-- Python list indexing `l[i]`: non-negative indices from the front,
negative indices from the back, `none` models an `IndexError`. -/
def pyIndex (l : List ℚ) (i : ℤ) : Option ℚ :=
  if 0 ≤ i then
    if h : i.toNat < l.length then some (l.get ⟨i.toNat, h⟩) else none
  else
    if h2 : ((l.length : ℤ) + i).toNat < l.length then
      if 0 ≤ (l.length : ℤ) + i then some (l.get ⟨((l.length : ℤ) + i).toNat, h2⟩)
      else none
    else none

/-- The scheduler configuration: the keys of the Python `config` dict. -/
structure SchedConfig where
  learning_steps : List ℚ
  graduating_interval : ℤ
  easy_interval : ℤ
  starting_ease : ℚ
  easy_bonus : ℚ
  interval_modifier : ℚ
  max_interval : ℤ
  min_ease : ℚ
  deriving Repr, DecidableEq

/-- `DEFAULT_CONFIG` from `anki_algorithm.py`. -/
def DEFAULT_CONFIG : SchedConfig :=
  { learning_steps := [1, 10]
    graduating_interval := 1
    easy_interval := 4
    starting_ease := 2.5
    easy_bonus := 1.3
    interval_modifier := 1.0
    max_interval := 36500
    min_ease := 1.3 }

/-- The state of class `AnkiCard`. `due_date` is never `None` on a
constructed object (the constructor substitutes `datetime.now()`). -/
structure AnkiCard where
  ease_factor : ℚ
  interval : ℤ
  due_date : ℚ
  step : ℤ
  is_learning : Bool
  repetitions : ℤ
  deriving Repr, DecidableEq

/-- The `AnkiCard.__init__` constructor.  Python's
`ease_factor or DEFAULT_CONFIG['starting_ease']` replaces a falsy value
(`None` or `0.0`) by the global default starting ease, and
`due_date or datetime.now()` replaces `None` by the current time
(a `datetime` object is always truthy). -/
def mkAnkiCard (ease_factor : Option ℚ) (interval : ℤ) (due_date : Option ℚ)
    (step : ℤ) (is_learning : Bool) (repetitions : ℤ) (now : ℚ) : AnkiCard :=
  { ease_factor :=
      match ease_factor with
      | none => DEFAULT_CONFIG.starting_ease
      | some e => if e = 0 then DEFAULT_CONFIG.starting_ease else e
    interval := interval
    due_date :=
      match due_date with
      | none => now
      | some d => d
    step := step
    is_learning := is_learning
    repetitions := repetitions }

/-- `calculate_next_review` from `anki_algorithm.py`.  The `rating` is a
Python int; a rating outside {0,1,2,3} falls through every branch and the
freshly constructed copy is returned unchanged.  `none` models an uncaught
`IndexError` from `config['learning_steps'][...]`. -/
def calculate_next_review (card : AnkiCard) (rating : ℤ) (config : SchedConfig)
    (now : ℚ) : Option AnkiCard :=
  let new0 := mkAnkiCard (some card.ease_factor) card.interval none card.step
    card.is_learning card.repetitions now
  if new0.is_learning then
    if rating = 0 then
      (pyIndex config.learning_steps 0).map (fun m =>
        { new0 with step := 0, due_date := now + m })
    else if rating = 1 then
      (pyIndex config.learning_steps new0.step).map (fun m =>
        { new0 with due_date := now + m })
    else if rating = 2 then
      if new0.step < (config.learning_steps.length : ℤ) - 1 then
        (pyIndex config.learning_steps (new0.step + 1)).map (fun m =>
          { new0 with step := new0.step + 1, due_date := now + m })
      else
        some { new0 with
          is_learning := false
          interval := config.graduating_interval
          due_date := now + 1440 * (config.graduating_interval : ℚ)
          repetitions := 1 }
    else if rating = 3 then
      some { new0 with
        is_learning := false
        interval := config.easy_interval
        due_date := now + 1440 * (config.easy_interval : ℚ)
        repetitions := 1 }
    else some new0
  else
    if rating = 0 then
      (pyIndex config.learning_steps 0).map (fun m =>
        { new0 with
          is_learning := true
          step := 0
          due_date := now + m
          repetitions := 0
          ease_factor := max config.min_ease (new0.ease_factor - 0.2) })
    else if rating = 1 then
      let itv := pyTrunc ((new0.interval : ℚ) * 1.2)
      some { new0 with
        interval := itv
        due_date := now + 1440 * (itv : ℚ)
        ease_factor := max config.min_ease (new0.ease_factor - 0.15)
        repetitions := new0.repetitions + 1 }
    else if rating = 2 then
      let itv0 : ℤ :=
        if new0.repetitions = 0 then 1
        else if new0.repetitions = 1 then 6
        else pyTrunc ((new0.interval : ℚ) * new0.ease_factor *
          config.interval_modifier)
      let itv := min itv0 config.max_interval
      some { new0 with
        interval := itv
        due_date := now + 1440 * (itv : ℚ)
        repetitions := new0.repetitions + 1 }
    else if rating = 3 then
      let itv0 : ℤ :=
        if new0.repetitions = 0 then config.easy_interval
        else pyTrunc ((new0.interval : ℚ) * new0.ease_factor *
          config.easy_bonus * config.interval_modifier)
      let itv := min itv0 config.max_interval
      some { new0 with
        interval := itv
        due_date := now + 1440 * (itv : ℚ)
        ease_factor := new0.ease_factor + 0.15
        repetitions := new0.repetitions + 1 }
    else some new0

/-- `AnkiCard()` with all defaults: the state created for a never-seen
card (`app.py`, review route). -/
def initialAnkiCard (now : ℚ) : AnkiCard :=
  mkAnkiCard none 0 none 0 true 0 now

/-- The dictionary shape produced by `AnkiCard.to_dict` and consumed by
`AnkiCard.from_dict`.  `none` models a missing key (`dict.get` default).
`due_date` is stored through `datetime.isoformat`, whose composition with
`datetime.fromisoformat` is the identity on `datetime` values, so the
serialized timestamp is modelled by the timestamp itself.
`is_learning` is stored as the integer `1`/`0`. -/
structure CardDict where
  ease_factor : Option ℚ
  interval : Option ℤ
  due_date : Option ℚ
  step : Option ℤ
  is_learning : Option ℤ
  repetitions : Option ℤ
  deriving Repr, DecidableEq

/-- `AnkiCard.to_dict` from `anki_algorithm.py`. -/
def AnkiCard.to_dict (c : AnkiCard) : CardDict :=
  { ease_factor := some c.ease_factor
    interval := some c.interval
    due_date := some c.due_date
    step := some c.step
    is_learning := some (if c.is_learning then 1 else 0)
    repetitions := some c.repetitions }

/-- Python `bool(i)` on an int: truthiness. -/
def pyBool (i : ℤ) : Bool :=
  i != 0

/-- `AnkiCard.from_dict` from `anki_algorithm.py`: reads each key with its
default and calls the `AnkiCard` constructor (`now` is the ambient clock
the constructor would read for a missing `due_date`). -/
def AnkiCard.from_dict (data : CardDict) (now : ℚ) : AnkiCard :=
  mkAnkiCard data.ease_factor (data.interval.getD 0) data.due_date
    (data.step.getD 0) (pyBool (data.is_learning.getD 1))
    (data.repetitions.getD 0) now

/-- Ordering used to model Python `list.sort(key=lambda x: x[1],
reverse=True)`: a stable sort putting larger keys first. -/
def keyGE {α : Type} (a b : α × ℚ) : Prop :=
  b.2 ≤ a.2

instance {α : Type} : DecidableRel (@keyGE α) :=
  fun a b => inferInstanceAs (Decidable (b.2 ≤ a.2))

instance {α : Type} : IsTotal (α × ℚ) keyGE :=
  ⟨fun a b => le_total b.2 a.2⟩

instance {α : Type} : IsTrans (α × ℚ) keyGE :=
  ⟨fun _ _ _ h1 h2 => le_trans h2 h1⟩

/-- The row shape `piocher_carte` receives from `get_all_user_progress`:
one row per flashcard of the deck, `due_date` is `NULL` (`none`) when the
user has no progress for the card (new card).  The remaining row fields
(question, answer, ease factor, ...) are copied verbatim into the result
dict and play no part in the selection, so the model returns the chosen
row itself. -/
structure CarteProgress where
  id : ℤ
  due_date : Option ℚ
  deriving Repr, DecidableEq

/-- The first pass of `piocher_carte`: new cards (no due date) get
priority key `0`, due cards get their overdue delay
`total_seconds() / 3600` (hours), not-yet-due cards are skipped. -/
def cartes_a_reviser (cartes_progress : List CarteProgress) (now : ℚ) :
    List (CarteProgress × ℚ) :=
  cartes_progress.filterMap (fun carte =>
    match carte.due_date with
    | none => some (carte, 0)
    | some due_date =>
      if due_date ≤ now then some (carte, (now - due_date) * 60 / 3600)
      else none)

/-- The fallback pass of `piocher_carte`, run when the first pass found
nothing: every card with a due date gets the negated time-until-due in
hours as its key. -/
def cartes_futures (cartes_progress : List CarteProgress) (now : ℚ) :
    List (CarteProgress × ℚ) :=
  cartes_progress.filterMap (fun carte =>
    match carte.due_date with
    | none => none
    | some due_date => some (carte, -((due_date - now) * 60 / 3600)))

/-- `piocher_carte` from `app.py` (deck lookup aside: the model starts
from the fetched rows).  The final sort is Python's stable
`sort(key=..., reverse=True)`, i.e. stable descending on the key, and the
first element of the sorted list is returned. -/
def piocher_carte (cartes_progress : List CarteProgress) (now : ℚ) :
    Option CarteProgress :=
  if cartes_progress = [] then none
  else
    let cartes2 : List (CarteProgress × ℚ) :=
      if cartes_a_reviser cartes_progress now = [] then
        cartes_futures cartes_progress now
      else cartes_a_reviser cartes_progress now
    if cartes2 = [] then none
    else
      match (cartes2.insertionSort keyGE).head? with
      | none => none
      | some x => some x.1

/-- A wall-clock reading broken into the fields a `datetime` renders:
what both Python's `isoformat()` and SQLite's `datetime('now')` print. -/
structure PyDateTime where
  year : ℕ
  month : ℕ
  day : ℕ
  hour : ℕ
  minute : ℕ
  second : ℕ
  microsecond : ℕ
  deriving Repr, DecidableEq

/-- ASCII bytes of the zero-padded 2-digit decimal of `n` (48 is `0`). -/
def pad2 (n : ℕ) : List ℕ :=
  [48 + n / 10 % 10, 48 + n % 10]

/-- ASCII bytes of the zero-padded 4-digit decimal of `n`. -/
def pad4 (n : ℕ) : List ℕ :=
  [48 + n / 1000 % 10, 48 + n / 100 % 10, 48 + n / 10 % 10, 48 + n % 10]

/-- ASCII bytes of the zero-padded 6-digit decimal of `n`. -/
def pad6 (n : ℕ) : List ℕ :=
  [48 + n / 100000 % 10, 48 + n / 10000 % 10, 48 + n / 1000 % 10,
   48 + n / 100 % 10, 48 + n / 10 % 10, 48 + n % 10]

/-- The ASCII bytes of Python `datetime.isoformat()`:
`YYYY-MM-DDTHH:MM:SS` with `.ffffff` appended when the microsecond field
is non-zero.  Byte 45 is `-`, 84 is `T`, 58 is `:`, 46 is `.`.  This is
the TEXT that `app.py` stores into `user_progress.due_date`
(`new_card.due_date.isoformat()`), rendered from the local clock. -/
def isoformatBytes (t : PyDateTime) : List ℕ :=
  pad4 t.year ++ [45] ++ pad2 t.month ++ [45] ++ pad2 t.day ++ [84] ++
    pad2 t.hour ++ [58] ++ pad2 t.minute ++ [58] ++ pad2 t.second ++
    (if t.microsecond = 0 then [] else [46] ++ pad6 t.microsecond)

/-- The ASCII bytes of SQLite `datetime('now')`: `YYYY-MM-DD HH:MM:SS`
with byte 32 (a space) between date and time, rendered from the UTC
clock, no fractional seconds. -/
def sqliteNowBytes (t : PyDateTime) : List ℕ :=
  pad4 t.year ++ [45] ++ pad2 t.month ++ [45] ++ pad2 t.day ++ [32] ++
    pad2 t.hour ++ [58] ++ pad2 t.minute ++ [58] ++ pad2 t.second

/-- SQLite's default BINARY collation on TEXT: memcmp order on the byte
sequences (a strict prefix sorts first). -/
def bytesLt : List ℕ → List ℕ → Bool
  | [], [] => false
  | [], _ :: _ => true
  | _ :: _, [] => false
  | a :: as, b :: bs =>
    if a < b then true
    else if b < a then false
    else bytesLt as bs

/-- SQL `x <= y` on TEXT under BINARY collation. -/
def bytesLe (a b : List ℕ) : Bool :=
  !bytesLt b a

/-- Python `datetime <= datetime`: the real chronological order on the
fields — what the spec's `due_at <= now` denotes. -/
def pyDateTimeLe (a b : PyDateTime) : Bool :=
  if a.year ≠ b.year then decide (a.year ≤ b.year)
  else if a.month ≠ b.month then decide (a.month ≤ b.month)
  else if a.day ≠ b.day then decide (a.day ≤ b.day)
  else if a.hour ≠ b.hour then decide (a.hour ≤ b.hour)
  else if a.minute ≠ b.minute then decide (a.minute ≤ b.minute)
  else if a.second ≠ b.second then decide (a.second ≤ b.second)
  else decide (a.microsecond ≤ b.microsecond)

/-- One user-progress row as seen by `get_user_flashcard_counts`:
`is_learning` flag and the stored `due_date` TEXT, kept as the wall-clock
fields the stored `isoformat()` string renders (SQL `NULL` is `none`). -/
structure UserProgress where
  is_learning : Bool
  due_date : Option PyDateTime
  deriving Repr, DecidableEq

/-- SQL `up.due_date <= datetime('now')`: a BINARY-collation TEXT
comparison between the stored `isoformat()` string and SQLite's
`datetime('now')` string; false when `due_date` is `NULL`.  `now` is the
UTC reading `datetime('now')` renders. -/
def dueLeNow (p : UserProgress) (now : PyDateTime) : Bool :=
  match p.due_date with
  | some d => bytesLe (isoformatBytes d) (sqliteNowBytes now)
  | none => false

/-- The first count query: the `LEFT JOIN` finds no `user_progress` row
(`up.id IS NULL`), i.e. the card was never studied. -/
def isNewRow (up : Option UserProgress) : Bool :=
  up.isNone

/-- The second count query: a progress row with `is_learning = 1` and
`due_date <= datetime('now')`. -/
def isLearningDueRow (up : Option UserProgress) (now : PyDateTime) : Bool :=
  match up with
  | some p => p.is_learning && dueLeNow p now
  | none => false

/-- The third count query: a progress row with `is_learning = 0` and
`due_date <= datetime('now')`. -/
def isReviewDueRow (up : Option UserProgress) (now : PyDateTime) : Bool :=
  match up with
  | some p => !p.is_learning && dueLeNow p now
  | none => false

/-- `get_user_flashcard_counts` from `database.py`: the three count
queries over the user's flashcards, one entry per flashcard, `none` when
no `user_progress` row exists for it (the `LEFT JOIN` / `up.id IS NULL`
case). Returns (new, relearn, review). The SQL only reads (`SELECT`):
no state is modified. -/
def get_user_flashcard_counts (rows : List (Option UserProgress))
    (now : PyDateTime) : ℕ × ℕ × ℕ :=
  (rows.countP isNewRow,
   rows.countP (fun up => isLearningDueRow up now),
   rows.countP (fun up => isReviewDueRow up now))

/-- Run a sequence of review events (rating, ambient clock reading)
through `calculate_next_review` with the default configuration, as the
review route of `app.py` does one event at a time; an uncaught exception
(`none`) aborts the run. -/
def scheduleRun (start : AnkiCard) : List (ℤ × ℚ) → Option AnkiCard
  | [] => some start
  | e :: es =>
    match calculate_next_review start e.1 DEFAULT_CONFIG e.2 with
    | none => none
    | some c => scheduleRun c es

/-- Forget the `due_date` field: the only output component of the
scheduler that depends on the ambient clock. -/
def eraseDue (c : AnkiCard) : AnkiCard :=
  { c with due_date := 0 }

/-- A card state reachable from the new-card initial state by scheduler
transitions whose ratings all lie in {0,1,2,3}. -/
def ReachableCard (c : AnkiCard) : Prop :=
  ∃ now0 events, (∀ e ∈ events, e.1 = 0 ∨ e.1 = 1 ∨ e.1 = 2 ∨ e.1 = 3) ∧
    scheduleRun (initialAnkiCard now0) events = some c

theorem pyIndex_zero (l : List ℚ) (h : l ≠ []) :
    pyIndex l 0 = some (l.head h) := by
  match l, h with
  | a :: t, _ => simp [pyIndex]

theorem pyTrunc_nonneg (q : ℚ) (h : 0 ≤ q) : 0 ≤ pyTrunc q := by
  unfold pyTrunc
  have hnum : 0 ≤ q.num := Rat.num_nonneg.mpr h
  rcases eq_or_lt_of_le hnum with h1 | h1
  · simp [← h1]
  · rw [Int.sign_eq_one_of_pos h1, one_mul]
    exact Int.natCast_nonneg _

theorem calc_learn_again (card : AnkiCard) (cfg : SchedConfig) (now : ℚ)
    (hl : card.is_learning = true) (h0 : card.ease_factor ≠ 0) :
    calculate_next_review card 0 cfg now =
      (pyIndex cfg.learning_steps 0).map (fun m =>
        ⟨card.ease_factor, card.interval, now + m, 0, true, card.repetitions⟩) := by
  simp [calculate_next_review, mkAnkiCard, hl, h0]

theorem calc_learn_hard (card : AnkiCard) (cfg : SchedConfig) (now : ℚ)
    (hl : card.is_learning = true) (h0 : card.ease_factor ≠ 0) :
    calculate_next_review card 1 cfg now =
      (pyIndex cfg.learning_steps card.step).map (fun m =>
        ⟨card.ease_factor, card.interval, now + m, card.step, true,
          card.repetitions⟩) := by
  simp [calculate_next_review, mkAnkiCard, hl, h0]

theorem calc_learn_good_advance (card : AnkiCard) (cfg : SchedConfig) (now : ℚ)
    (hl : card.is_learning = true) (h0 : card.ease_factor ≠ 0)
    (hs : card.step < (cfg.learning_steps.length : ℤ) - 1) :
    calculate_next_review card 2 cfg now =
      (pyIndex cfg.learning_steps (card.step + 1)).map (fun m =>
        ⟨card.ease_factor, card.interval, now + m, card.step + 1, true,
          card.repetitions⟩) := by
  simp [calculate_next_review, mkAnkiCard, hl, h0, hs]

theorem calc_learn_good_graduate (card : AnkiCard) (cfg : SchedConfig) (now : ℚ)
    (hl : card.is_learning = true) (h0 : card.ease_factor ≠ 0)
    (hs : ¬card.step < (cfg.learning_steps.length : ℤ) - 1) :
    calculate_next_review card 2 cfg now =
      some ⟨card.ease_factor, cfg.graduating_interval,
        now + 1440 * (cfg.graduating_interval : ℚ), card.step, false, 1⟩ := by
  simp [calculate_next_review, mkAnkiCard, hl, h0, hs]

theorem calc_learn_easy (card : AnkiCard) (cfg : SchedConfig) (now : ℚ)
    (hl : card.is_learning = true) (h0 : card.ease_factor ≠ 0) :
    calculate_next_review card 3 cfg now =
      some ⟨card.ease_factor, cfg.easy_interval,
        now + 1440 * (cfg.easy_interval : ℚ), card.step, false, 1⟩ := by
  simp [calculate_next_review, mkAnkiCard, hl, h0]

theorem calc_review_again (card : AnkiCard) (cfg : SchedConfig) (now : ℚ)
    (hl : card.is_learning = false) (h0 : card.ease_factor ≠ 0) :
    calculate_next_review card 0 cfg now =
      (pyIndex cfg.learning_steps 0).map (fun m =>
        ⟨max cfg.min_ease (card.ease_factor - 0.2), card.interval, now + m, 0,
          true, 0⟩) := by
  simp [calculate_next_review, mkAnkiCard, hl, h0]

theorem calc_review_hard (card : AnkiCard) (cfg : SchedConfig) (now : ℚ)
    (hl : card.is_learning = false) (h0 : card.ease_factor ≠ 0) :
    calculate_next_review card 1 cfg now =
      some ⟨max cfg.min_ease (card.ease_factor - 0.15),
        pyTrunc ((card.interval : ℚ) * 1.2),
        now + 1440 * ((pyTrunc ((card.interval : ℚ) * 1.2) : ℤ) : ℚ),
        card.step, false, card.repetitions + 1⟩ := by
  simp [calculate_next_review, mkAnkiCard, hl, h0]

theorem calc_review_good (card : AnkiCard) (cfg : SchedConfig) (now : ℚ)
    (hl : card.is_learning = false) (h0 : card.ease_factor ≠ 0) :
    calculate_next_review card 2 cfg now =
      some ⟨card.ease_factor,
        min (if card.repetitions = 0 then 1 else if card.repetitions = 1 then 6
          else pyTrunc ((card.interval : ℚ) * card.ease_factor *
            cfg.interval_modifier)) cfg.max_interval,
        now + 1440 * ((min (if card.repetitions = 0 then 1
          else if card.repetitions = 1 then 6
          else pyTrunc ((card.interval : ℚ) * card.ease_factor *
            cfg.interval_modifier)) cfg.max_interval : ℤ) : ℚ),
        card.step, false, card.repetitions + 1⟩ := by
  simp [calculate_next_review, mkAnkiCard, hl, h0]

theorem calc_review_easy (card : AnkiCard) (cfg : SchedConfig) (now : ℚ)
    (hl : card.is_learning = false) (h0 : card.ease_factor ≠ 0) :
    calculate_next_review card 3 cfg now =
      some ⟨card.ease_factor + 0.15,
        min (if card.repetitions = 0 then cfg.easy_interval
          else pyTrunc ((card.interval : ℚ) * card.ease_factor *
            cfg.easy_bonus * cfg.interval_modifier)) cfg.max_interval,
        now + 1440 * ((min (if card.repetitions = 0 then cfg.easy_interval
          else pyTrunc ((card.interval : ℚ) * card.ease_factor *
            cfg.easy_bonus * cfg.interval_modifier)) cfg.max_interval : ℤ) : ℚ),
        card.step, false, card.repetitions + 1⟩ := by
  simp [calculate_next_review, mkAnkiCard, hl, h0]

theorem calc_invalid_rating (card : AnkiCard) (rating : ℤ) (cfg : SchedConfig)
    (now : ℚ) (h0 : card.ease_factor ≠ 0)
    (hr : ¬(rating = 0 ∨ rating = 1 ∨ rating = 2 ∨ rating = 3)) :
    calculate_next_review card rating cfg now =
      some { card with due_date := now } := by
  push_neg at hr
  obtain ⟨hr0, hr1, hr2, hr3⟩ := hr
  cases hcl : card.is_learning <;>
    simp [calculate_next_review, mkAnkiCard, hcl, h0, hr0, hr1, hr2, hr3]

theorem calc_ease_coalesce (card : AnkiCard) (rating : ℤ) (cfg : SchedConfig)
    (now : ℚ) (h : card.ease_factor = 0) :
    calculate_next_review card rating cfg now =
      calculate_next_review
        { card with ease_factor := DEFAULT_CONFIG.starting_ease } rating cfg
        now := by
  have hmk : mkAnkiCard (some card.ease_factor) card.interval none card.step
      card.is_learning card.repetitions now =
      mkAnkiCard (some DEFAULT_CONFIG.starting_ease) card.interval none
        card.step card.is_learning card.repetitions now := by
    simp [mkAnkiCard, h, DEFAULT_CONFIG]
  unfold calculate_next_review
  simp only [hmk]

theorem calc_map_eraseDue_aux (card : AnkiCard) (rating : ℤ)
    (cfg : SchedConfig) (t1 t2 : ℚ) (h0 : card.ease_factor ≠ 0) :
    (calculate_next_review card rating cfg t1).map eraseDue =
      (calculate_next_review card rating cfg t2).map eraseDue := by
  by_cases hr0 : rating = 0
  · subst hr0
    cases hl : card.is_learning
    · rw [calc_review_again card cfg t1 hl h0, calc_review_again card cfg t2 hl h0]
      cases pyIndex cfg.learning_steps 0 <;> simp [eraseDue]
    · rw [calc_learn_again card cfg t1 hl h0, calc_learn_again card cfg t2 hl h0]
      cases pyIndex cfg.learning_steps 0 <;> simp [eraseDue]
  by_cases hr1 : rating = 1
  · subst hr1
    cases hl : card.is_learning
    · rw [calc_review_hard card cfg t1 hl h0, calc_review_hard card cfg t2 hl h0]
      simp [eraseDue]
    · rw [calc_learn_hard card cfg t1 hl h0, calc_learn_hard card cfg t2 hl h0]
      cases pyIndex cfg.learning_steps card.step <;> simp [eraseDue]
  by_cases hr2 : rating = 2
  · subst hr2
    cases hl : card.is_learning
    · rw [calc_review_good card cfg t1 hl h0, calc_review_good card cfg t2 hl h0]
      simp [eraseDue]
    · by_cases hs : card.step < (cfg.learning_steps.length : ℤ) - 1
      · rw [calc_learn_good_advance card cfg t1 hl h0 hs,
          calc_learn_good_advance card cfg t2 hl h0 hs]
        cases pyIndex cfg.learning_steps (card.step + 1) <;> simp [eraseDue]
      · rw [calc_learn_good_graduate card cfg t1 hl h0 hs,
          calc_learn_good_graduate card cfg t2 hl h0 hs]
        simp [eraseDue]
  by_cases hr3 : rating = 3
  · subst hr3
    cases hl : card.is_learning
    · rw [calc_review_easy card cfg t1 hl h0, calc_review_easy card cfg t2 hl h0]
      simp [eraseDue]
    · rw [calc_learn_easy card cfg t1 hl h0, calc_learn_easy card cfg t2 hl h0]
      simp [eraseDue]
  have hr : ¬(rating = 0 ∨ rating = 1 ∨ rating = 2 ∨ rating = 3) := by
    push_neg
    exact ⟨hr0, hr1, hr2, hr3⟩
  rw [calc_invalid_rating card rating cfg t1 h0 hr,
    calc_invalid_rating card rating cfg t2 h0 hr]
  simp [eraseDue]

theorem calc_map_eraseDue (card : AnkiCard) (rating : ℤ) (cfg : SchedConfig)
    (t1 t2 : ℚ) :
    (calculate_next_review card rating cfg t1).map eraseDue =
      (calculate_next_review card rating cfg t2).map eraseDue := by
  by_cases h0 : card.ease_factor = 0
  · rw [calc_ease_coalesce card rating cfg t1 h0,
      calc_ease_coalesce card rating cfg t2 h0]
    exact calc_map_eraseDue_aux _ rating cfg t1 t2 (by norm_num [DEFAULT_CONFIG])
  · exact calc_map_eraseDue_aux card rating cfg t1 t2 h0

theorem pyIndex_isSome (l : List ℚ) (i : ℤ) (h1 : 0 ≤ i)
    (h2 : i < (l.length : ℤ)) : (pyIndex l i).isSome = true := by
  unfold pyIndex
  rw [if_pos h1, dif_pos (by omega)]
  rfl

/-- C2 counterexample: `calculate_next_review` is not deterministic given
its declared inputs (card, rating, configuration): the Python function
takes no `now` parameter and reads `datetime.now()` internally, so two
calls with identical declared inputs but different ambient clock readings
return different states (the `due_date` differs). -/
theorem C2_counterexample :
    calculate_next_review (initialAnkiCard 0) 2 DEFAULT_CONFIG 0 ≠
      calculate_next_review (initialAnkiCard 0) 2 DEFAULT_CONFIG 1440 := by
  decide

/-- C2 (amended): the current time is not an explicit parameter — both
`calculate_next_review` and `piocher_carte` read the ambient clock
(`datetime.now()`) inside the logic.  Modelling that ambient reading as
an input: every output field except `due_date` is independent of the
clock reading, and two calls with the same state, rating, configuration
and the same ambient clock reading (resp. the same snapshot and reading)
produce identical outputs. -/
theorem C2_determinism_amended (card : AnkiCard) (rating : ℤ)
    (cfg : SchedConfig) (t1 t2 : ℚ) :
    (calculate_next_review card rating cfg t1).map eraseDue =
      (calculate_next_review card rating cfg t2).map eraseDue ∧
    (t1 = t2 →
      calculate_next_review card rating cfg t1 =
        calculate_next_review card rating cfg t2 ∧
      ∀ s : List CarteProgress, piocher_carte s t1 = piocher_carte s t2) := by
  refine ⟨calc_map_eraseDue card rating cfg t1 t2, fun h => ?_⟩
  subst h
  exact ⟨rfl, fun s => rfl⟩

/-- C2 witness: the amended determinism at a concrete input. -/
theorem C2_witness :
    calculate_next_review (initialAnkiCard 0) 2 DEFAULT_CONFIG 5 =
      calculate_next_review (initialAnkiCard 0) 2 DEFAULT_CONFIG 5 ∧
    ∀ s : List CarteProgress, piocher_carte s 5 = piocher_carte s 5 :=
  (C2_determinism_amended (initialAnkiCard 0) 2 DEFAULT_CONFIG 5 5).2 rfl

/-- C3 counterexample: a rating outside {0,1,2,3} does not make
`calculate_next_review` fail: rating 5 falls through every branch and the
call returns the unchanged copy of the card (with `due_date` set to the
ambient clock reading) — there is no `InvalidRating` rejection in the
code. -/
theorem C3_counterexample :
    calculate_next_review (initialAnkiCard 0) 5 DEFAULT_CONFIG 0 =
      some (initialAnkiCard 0) := by
  decide

/-- C3 (amended): `calculate_next_review` performs no rating validation —
a rating outside {0,1,2,3} is silently accepted and returns a copy of the
card with only `due_date` set to the current time.  The only failure mode
is an uncaught `IndexError` from indexing `learning_steps`; when
`learning_steps` is non-empty and the card's `step` is a valid index the
function is total, for every integer rating. -/
theorem C3_no_validation_total (card : AnkiCard) (rating : ℤ)
    (cfg : SchedConfig) (now : ℚ) (h0 : card.ease_factor ≠ 0)
    (hne : cfg.learning_steps ≠ []) (hs0 : 0 ≤ card.step)
    (hs1 : card.step < (cfg.learning_steps.length : ℤ)) :
    (calculate_next_review card rating cfg now).isSome = true ∧
      (¬(rating = 0 ∨ rating = 1 ∨ rating = 2 ∨ rating = 3) →
        calculate_next_review card rating cfg now =
          some { card with due_date := now }) := by
  have hlen : 0 < (cfg.learning_steps.length : ℤ) := by
    have := List.length_pos.mpr hne
    omega
  refine ⟨?_, fun hr => calc_invalid_rating card rating cfg now h0 hr⟩
  by_cases hr0 : rating = 0
  · subst hr0
    cases hl : card.is_learning
    · rw [calc_review_again card cfg now hl h0]
      simp only [Option.isSome_map']
      exact pyIndex_isSome _ 0 le_rfl hlen
    · rw [calc_learn_again card cfg now hl h0]
      simp only [Option.isSome_map']
      exact pyIndex_isSome _ 0 le_rfl hlen
  by_cases hr1 : rating = 1
  · subst hr1
    cases hl : card.is_learning
    · rw [calc_review_hard card cfg now hl h0]
      rfl
    · rw [calc_learn_hard card cfg now hl h0]
      simp only [Option.isSome_map']
      exact pyIndex_isSome _ card.step hs0 hs1
  by_cases hr2 : rating = 2
  · subst hr2
    cases hl : card.is_learning
    · rw [calc_review_good card cfg now hl h0]
      rfl
    · by_cases hs : card.step < (cfg.learning_steps.length : ℤ) - 1
      · rw [calc_learn_good_advance card cfg now hl h0 hs]
        simp only [Option.isSome_map']
        exact pyIndex_isSome _ (card.step + 1) (by omega) (by omega)
      · rw [calc_learn_good_graduate card cfg now hl h0 hs]
        rfl
  by_cases hr3 : rating = 3
  · subst hr3
    cases hl : card.is_learning
    · rw [calc_review_easy card cfg now hl h0]
      rfl
    · rw [calc_learn_easy card cfg now hl h0]
      rfl
  have hr : ¬(rating = 0 ∨ rating = 1 ∨ rating = 2 ∨ rating = 3) := by
    push_neg
    exact ⟨hr0, hr1, hr2, hr3⟩
  rw [calc_invalid_rating card rating cfg now h0 hr]
  rfl

/-- C3 witness: totality of the scheduler at a concrete input with an
out-of-range rating. -/
theorem C3_witness :
    (calculate_next_review (initialAnkiCard 3) 7 DEFAULT_CONFIG 3).isSome =
      true :=
  (C3_no_validation_total (initialAnkiCard 3) 7 DEFAULT_CONFIG 3 (by decide)
    (by decide) (by decide) (by decide)).1

/-- C4: `piocher_carte` does not give new cards maximal priority.  With a
new card (id 1, no progress, priority key 0) and a card overdue by two
hours (id 2, key 2.0), the descending sort puts the overdue card first
and the selector returns it — contradicting the code's own comments
("Priorité max", "nouvelles cartes d'abord") and the new-cards-first
ordering of `get_cards_to_review`. -/
theorem C4_overdue_beats_new :
    piocher_carte [⟨1, none⟩, ⟨2, some 880⟩] 1000 = some ⟨2, some 880⟩ := by
  decide

/-- C5: in Review phase with rating Good, `calculate_next_review` sets
the interval to 1 when `repetitions == 0`, to 6 when `repetitions == 1`,
and otherwise to the truncation toward zero of
`interval * ease_factor * interval_modifier`; it then clamps the interval
to at most `max_interval`, sets `due_at = now + interval` days,
increments `repetitions`, and leaves the ease factor unchanged.  The
hypothesis `ease_factor ≠ 0` is a representation invariant of the Python
`AnkiCard` class (its constructor replaces a falsy ease by the starting
ease, so no constructed card has ease 0). -/
theorem C5_review_good_transition (card : AnkiCard) (cfg : SchedConfig)
    (now : ℚ) (hl : card.is_learning = false) (h0 : card.ease_factor ≠ 0) :
    ∃ c', calculate_next_review card 2 cfg now = some c' ∧
      c'.interval =
        min (if card.repetitions = 0 then 1 else if card.repetitions = 1 then 6
          else pyTrunc ((card.interval : ℚ) * card.ease_factor *
            cfg.interval_modifier)) cfg.max_interval ∧
      c'.due_date = now + 1440 * (c'.interval : ℚ) ∧
      c'.repetitions = card.repetitions + 1 ∧
      c'.ease_factor = card.ease_factor ∧
      c'.is_learning = false :=
  ⟨_, calc_review_good card cfg now hl h0, rfl, rfl, rfl, rfl, rfl⟩

/-- C5 witness: Scenario D — interval 6, ease 2.5, repetitions 2, default
configuration: `interval = trunc(6 * 2.5 * 1.0) = 15`, `repetitions = 3`,
ease unchanged. -/
theorem C5_witness :
    ∃ c', calculate_next_review ⟨2.5, 6, 0, 0, false, 2⟩ 2 DEFAULT_CONFIG 100 =
        some c' ∧
      c'.interval = 15 ∧ c'.due_date = 100 + 1440 * 15 ∧
      c'.repetitions = 3 ∧ c'.ease_factor = 2.5 := by
  obtain ⟨c', hc, hi, hd, hr, he, -⟩ :=
    C5_review_good_transition ⟨2.5, 6, 0, 0, false, 2⟩ DEFAULT_CONFIG 100 rfl
      (by decide)
  refine ⟨c', hc, ?_, ?_, ?_, ?_⟩
  · rw [hi]; decide
  · rw [hd, hi]; decide
  · rw [hr]; decide
  · rw [he]

/-- C6: in Review phase with rating Again (a lapse),
`calculate_next_review` moves the card to Learning with `step = 0`, sets
`due_at = now + learning_steps[0]` minutes, resets `repetitions` to 0,
sets `ease_factor = max(min_ease, ease_factor - 0.2)`, and leaves the
interval unchanged.  `ease_factor ≠ 0` is the `AnkiCard` representation
invariant; a non-empty `learning_steps` is presupposed by the claim's
`learning_steps[0]`. -/
theorem C6_review_again_transition (card : AnkiCard) (cfg : SchedConfig)
    (now : ℚ) (hl : card.is_learning = false) (h0 : card.ease_factor ≠ 0)
    (hne : cfg.learning_steps ≠ []) :
    calculate_next_review card 0 cfg now =
      some ⟨max cfg.min_ease (card.ease_factor - 0.2), card.interval,
        now + cfg.learning_steps.head hne, 0, true, 0⟩ := by
  rw [calc_review_again card cfg now hl h0, pyIndex_zero _ hne]
  rfl

/-- C6 witness: Scenario E — ease 2.5, interval 15, repetitions 3, rated
Again under the default configuration: Learning phase, step 0,
repetitions 0, ease 2.3, due one minute from now, interval untouched. -/
theorem C6_witness :
    calculate_next_review ⟨2.5, 15, 0, 1, false, 3⟩ 0 DEFAULT_CONFIG 50 =
      some ⟨2.3, 15, 51, 0, true, 0⟩ := by
  rw [C6_review_again_transition ⟨2.5, 15, 0, 1, false, 3⟩ DEFAULT_CONFIG 50
    rfl (by decide) (by decide)]
  decide

/-- C9: the storage round-trip `AnkiCard.from_dict(card.to_dict())` is
the identity on every card whose `ease_factor` is non-zero (`to_dict`
always stores a present `due_date`, since a constructed card never holds
`None` there): ease, interval, due date, step, the 0/1-encoded
`is_learning` flag, and repetitions all survive. -/
theorem C9_dict_roundtrip (c : AnkiCard) (now : ℚ)
    (h0 : c.ease_factor ≠ 0) :
    AnkiCard.from_dict (AnkiCard.to_dict c) now = c := by
  obtain ⟨e, i, d, s, b, r⟩ := c
  simp only at h0
  cases b <;>
    simp [AnkiCard.from_dict, AnkiCard.to_dict, mkAnkiCard, pyBool, h0]

/-- C9 witness: the round-trip at a concrete card. -/
theorem C9_witness :
    AnkiCard.from_dict (AnkiCard.to_dict ⟨2.5, 6, 120, 1, true, 2⟩) 0 =
      ⟨2.5, 6, 120, 1, true, 2⟩ :=
  C9_dict_roundtrip ⟨2.5, 6, 120, 1, true, 2⟩ 0 (by decide)

/-- C10: for a Learning-phase card and any rating in {0,1,2,3},
`calculate_next_review` leaves the ease factor exactly equal to the
input's — graduation included — and for ratings Again and Hard it also
leaves interval, repetitions and the phase unchanged.  `ease_factor ≠ 0`
is the `AnkiCard` representation invariant. -/
theorem C10_learning_frame (card : AnkiCard) (rating : ℤ)
    (cfg : SchedConfig) (now : ℚ) (c' : AnkiCard)
    (hl : card.is_learning = true) (h0 : card.ease_factor ≠ 0)
    (hr : rating = 0 ∨ rating = 1 ∨ rating = 2 ∨ rating = 3)
    (hc : calculate_next_review card rating cfg now = some c') :
    c'.ease_factor = card.ease_factor ∧
      (rating = 0 ∨ rating = 1 →
        c'.interval = card.interval ∧ c'.repetitions = card.repetitions ∧
          c'.is_learning = true) := by
  rcases hr with rfl | rfl | rfl | rfl
  · rw [calc_learn_again card cfg now hl h0] at hc
    cases hp : pyIndex cfg.learning_steps 0 <;> rw [hp] at hc <;> simp at hc
    rw [← hc]
    simp
  · rw [calc_learn_hard card cfg now hl h0] at hc
    cases hp : pyIndex cfg.learning_steps card.step <;> rw [hp] at hc <;>
      simp at hc
    rw [← hc]
    simp
  · by_cases hs : card.step < (cfg.learning_steps.length : ℤ) - 1
    · rw [calc_learn_good_advance card cfg now hl h0 hs] at hc
      cases hp : pyIndex cfg.learning_steps (card.step + 1) <;>
        rw [hp] at hc <;> simp at hc
      rw [← hc]
      simp
    · rw [calc_learn_good_graduate card cfg now hl h0 hs] at hc
      simp at hc
      rw [← hc]
      simp
  · rw [calc_learn_easy card cfg now hl h0] at hc
    simp at hc
    rw [← hc]
    simp

/-- C10 witness: a new learning card rated Again keeps its ease,
interval, repetitions and phase. -/
theorem C10_witness :
    ∃ c', calculate_next_review (initialAnkiCard 0) 0 DEFAULT_CONFIG 9 =
        some c' ∧
      c'.ease_factor = 2.5 ∧ c'.interval = 0 ∧ c'.repetitions = 0 ∧
        c'.is_learning = true := by
  have hc : calculate_next_review (initialAnkiCard 0) 0 DEFAULT_CONFIG 9 =
      some ⟨2.5, 0, 10, 0, true, 0⟩ := by decide
  obtain ⟨he, hrest⟩ :=
    C10_learning_frame (initialAnkiCard 0) 0 DEFAULT_CONFIG 9
      ⟨2.5, 0, 10, 0, true, 0⟩ (by decide) (by decide) (Or.inl rfl) hc
  obtain ⟨hi, hrep, hlearn⟩ := hrest (Or.inl rfl)
  exact ⟨⟨2.5, 0, 10, 0, true, 0⟩, hc, by decide, by decide, by decide,
    by decide⟩

/-- C8: the due-filter of `get_user_flashcard_counts` does not implement
`due_at <= now`.  The `due_date` column holds Python `isoformat()` TEXT
(`YYYY-MM-DDTHH:MM:SS[.ffffff]`, local clock) while `datetime('now')`
renders `YYYY-MM-DD HH:MM:SS` (space separator, UTC); SQLite compares
the two TEXT values bytewise, and on an equal date prefix the byte 84
(`T`) sorts after 32 (the space), so a card due earlier the *same* day
is never counted.  Concretely: a learning card due at 08:00 counted at
10:00 of the same day lands in no bucket — counts (0,0,0) where the
claimed characterization gives (0,1,0) — while the same card due the
previous day is counted, showing the comparison is decided by the date
prefix alone. -/
theorem C8_text_comparison_bug :
    pyDateTimeLe ⟨2026, 10, 12, 8, 0, 0, 0⟩ ⟨2026, 10, 12, 10, 0, 0, 0⟩ =
      true ∧
    bytesLe (isoformatBytes ⟨2026, 10, 12, 8, 0, 0, 0⟩)
      (sqliteNowBytes ⟨2026, 10, 12, 10, 0, 0, 0⟩) = false ∧
    get_user_flashcard_counts
      [some ⟨true, some ⟨2026, 10, 12, 8, 0, 0, 0⟩⟩]
      ⟨2026, 10, 12, 10, 0, 0, 0⟩ = (0, 0, 0) ∧
    get_user_flashcard_counts
      [some ⟨true, some ⟨2026, 10, 11, 8, 0, 0, 0⟩⟩]
      ⟨2026, 10, 12, 10, 0, 0, 0⟩ = (0, 1, 0) := by
  decide

theorem scheduleRun_preserves (P : AnkiCard → Prop)
    (hstep : ∀ card rating now c', P card →
      (rating = 0 ∨ rating = 1 ∨ rating = 2 ∨ rating = 3) →
      calculate_next_review card rating DEFAULT_CONFIG now = some c' → P c') :
    ∀ (events : List (ℤ × ℚ)) (start c : AnkiCard),
      (∀ e ∈ events, e.1 = 0 ∨ e.1 = 1 ∨ e.1 = 2 ∨ e.1 = 3) →
      P start → scheduleRun start events = some c → P c := by
  intro events
  induction events with
  | nil =>
    intro start c _ hP hrun
    simp [scheduleRun] at hrun
    rw [← hrun]
    exact hP
  | cons e es ih =>
    intro start c hall hP hrun
    simp only [scheduleRun] at hrun
    cases hc : calculate_next_review start e.1 DEFAULT_CONFIG e.2 with
    | none => rw [hc] at hrun; simp at hrun
    | some c1 =>
      rw [hc] at hrun
      simp only [] at hrun
      exact ih c1 c (fun x hx => hall x (List.mem_cons_of_mem e hx))
        (hstep start e.1 e.2 c1 hP (hall e (List.mem_cons_self e es)) hc) hrun

theorem calc_default_lower_bounds (card : AnkiCard) (rating : ℤ) (now : ℚ)
    (c' : AnkiCard) (he : DEFAULT_CONFIG.min_ease ≤ card.ease_factor)
    (hi : 0 ≤ card.interval)
    (hc : calculate_next_review card rating DEFAULT_CONFIG now = some c') :
    DEFAULT_CONFIG.min_ease ≤ c'.ease_factor ∧ 0 ≤ c'.interval := by
  have hme : (0 : ℚ) < DEFAULT_CONFIG.min_ease := by norm_num [DEFAULT_CONFIG]
  have h0 : card.ease_factor ≠ 0 := (lt_of_lt_of_le hme he).ne'
  have hiq : (0 : ℚ) ≤ (card.interval : ℚ) := by exact_mod_cast hi
  have heq : (0 : ℚ) ≤ card.ease_factor := le_of_lt (lt_of_lt_of_le hme he)
  by_cases hr0 : rating = 0
  · subst hr0
    cases hl : card.is_learning
    · rw [calc_review_again card _ now hl h0] at hc
      cases hp : pyIndex DEFAULT_CONFIG.learning_steps 0 <;> rw [hp] at hc <;>
        simp at hc
      rw [← hc]
      exact ⟨le_max_left _ _, hi⟩
    · rw [calc_learn_again card _ now hl h0] at hc
      cases hp : pyIndex DEFAULT_CONFIG.learning_steps 0 <;> rw [hp] at hc <;>
        simp at hc
      rw [← hc]
      exact ⟨he, hi⟩
  by_cases hr1 : rating = 1
  · subst hr1
    cases hl : card.is_learning
    · rw [calc_review_hard card _ now hl h0] at hc
      simp at hc
      rw [← hc]
      refine ⟨le_max_left _ _, pyTrunc_nonneg _ ?_⟩
      positivity
    · rw [calc_learn_hard card _ now hl h0] at hc
      cases hp : pyIndex DEFAULT_CONFIG.learning_steps card.step <;>
        rw [hp] at hc <;> simp at hc
      rw [← hc]
      exact ⟨he, hi⟩
  by_cases hr2 : rating = 2
  · subst hr2
    cases hl : card.is_learning
    · rw [calc_review_good card _ now hl h0] at hc
      simp at hc
      rw [← hc]
      refine ⟨he, le_min ?_ (by norm_num [DEFAULT_CONFIG])⟩
      by_cases h2 : card.repetitions = 0
      · simp [h2]
      by_cases h3 : card.repetitions = 1
      · simp [h2, h3]
      simp only [h2, h3, if_false]
      refine pyTrunc_nonneg _ ?_
      have hmod : (0 : ℚ) ≤ DEFAULT_CONFIG.interval_modifier := by
        norm_num [DEFAULT_CONFIG]
      positivity
    · by_cases hs : card.step < (DEFAULT_CONFIG.learning_steps.length : ℤ) - 1
      · rw [calc_learn_good_advance card _ now hl h0 hs] at hc
        cases hp : pyIndex DEFAULT_CONFIG.learning_steps (card.step + 1) <;>
          rw [hp] at hc <;> simp at hc
        rw [← hc]
        exact ⟨he, hi⟩
      · rw [calc_learn_good_graduate card _ now hl h0 hs] at hc
        simp at hc
        rw [← hc]
        exact ⟨he, by norm_num [DEFAULT_CONFIG]⟩
  by_cases hr3 : rating = 3
  · subst hr3
    cases hl : card.is_learning
    · rw [calc_review_easy card _ now hl h0] at hc
      simp at hc
      rw [← hc]
      constructor
      · simp only []
        have : (0 : ℚ) ≤ 0.15 := by norm_num
        linarith
      refine le_min ?_ (by norm_num [DEFAULT_CONFIG])
      by_cases h2 : card.repetitions = 0
      · simp [h2, DEFAULT_CONFIG]
      simp only [h2, if_false]
      refine pyTrunc_nonneg _ ?_
      have hb : (0 : ℚ) ≤ DEFAULT_CONFIG.easy_bonus := by
        norm_num [DEFAULT_CONFIG]
      have hmod : (0 : ℚ) ≤ DEFAULT_CONFIG.interval_modifier := by
        norm_num [DEFAULT_CONFIG]
      positivity
    · rw [calc_learn_easy card _ now hl h0] at hc
      simp at hc
      rw [← hc]
      exact ⟨he, by norm_num [DEFAULT_CONFIG]⟩
  have hr : ¬(rating = 0 ∨ rating = 1 ∨ rating = 2 ∨ rating = 3) := by
    push_neg
    exact ⟨hr0, hr1, hr2, hr3⟩
  rw [calc_invalid_rating card rating _ now h0 hr] at hc
  simp at hc
  rw [← hc]
  exact ⟨he, hi⟩

theorem calc_default_upper_bound (card : AnkiCard) (rating : ℤ) (now : ℚ)
    (c' : AnkiCard) (he : DEFAULT_CONFIG.min_ease ≤ card.ease_factor)
    (hi2 : card.interval ≤ DEFAULT_CONFIG.max_interval)
    (hnh : ¬(card.is_learning = false ∧ rating = 1))
    (hc : calculate_next_review card rating DEFAULT_CONFIG now = some c') :
    c'.interval ≤ DEFAULT_CONFIG.max_interval := by
  have hme : (0 : ℚ) < DEFAULT_CONFIG.min_ease := by norm_num [DEFAULT_CONFIG]
  have h0 : card.ease_factor ≠ 0 := (lt_of_lt_of_le hme he).ne'
  by_cases hr0 : rating = 0
  · subst hr0
    cases hl : card.is_learning
    · rw [calc_review_again card _ now hl h0] at hc
      cases hp : pyIndex DEFAULT_CONFIG.learning_steps 0 <;> rw [hp] at hc <;>
        simp at hc
      rw [← hc]
      exact hi2
    · rw [calc_learn_again card _ now hl h0] at hc
      cases hp : pyIndex DEFAULT_CONFIG.learning_steps 0 <;> rw [hp] at hc <;>
        simp at hc
      rw [← hc]
      exact hi2
  by_cases hr1 : rating = 1
  · subst hr1
    cases hl : card.is_learning
    · exact absurd ⟨hl, rfl⟩ hnh
    · rw [calc_learn_hard card _ now hl h0] at hc
      cases hp : pyIndex DEFAULT_CONFIG.learning_steps card.step <;>
        rw [hp] at hc <;> simp at hc
      rw [← hc]
      exact hi2
  by_cases hr2 : rating = 2
  · subst hr2
    cases hl : card.is_learning
    · rw [calc_review_good card _ now hl h0] at hc
      simp at hc
      rw [← hc]
      exact min_le_right _ _
    · by_cases hs : card.step < (DEFAULT_CONFIG.learning_steps.length : ℤ) - 1
      · rw [calc_learn_good_advance card _ now hl h0 hs] at hc
        cases hp : pyIndex DEFAULT_CONFIG.learning_steps (card.step + 1) <;>
          rw [hp] at hc <;> simp at hc
        rw [← hc]
        exact hi2
      · rw [calc_learn_good_graduate card _ now hl h0 hs] at hc
        simp at hc
        rw [← hc]
        norm_num [DEFAULT_CONFIG]
  by_cases hr3 : rating = 3
  · subst hr3
    cases hl : card.is_learning
    · rw [calc_review_easy card _ now hl h0] at hc
      simp at hc
      rw [← hc]
      exact min_le_right _ _
    · rw [calc_learn_easy card _ now hl h0] at hc
      simp at hc
      rw [← hc]
      norm_num [DEFAULT_CONFIG]
  have hr : ¬(rating = 0 ∨ rating = 1 ∨ rating = 2 ∨ rating = 3) := by
    push_neg
    exact ⟨hr0, hr1, hr2, hr3⟩
  rw [calc_invalid_rating card rating _ now h0 hr] at hc
  simp at hc
  rw [← hc]
  exact hi2

/-- C1 counterexample: the interval upper bound `interval <= 36500` fails
on a reachable state.  Thirteen Good ratings from a new card drive the
interval up to the clamp 36500 (ease stays 2.5); one further Hard rating
computes `int(36500 * 1.2) = 43800` with no clamp — the review-phase
Hard branch of `calculate_next_review` never applies `max_interval`. -/
theorem C1_counterexample :
    ((List.replicate 13 ((2 : ℤ), (0 : ℚ)) ++ [((1 : ℤ), (0 : ℚ))]).all
      (fun e => e.1 == 0 || e.1 == 1 || e.1 == 2 || e.1 == 3)) = true ∧
    (scheduleRun (initialAnkiCard 0)
        (List.replicate 13 ((2 : ℤ), (0 : ℚ)) ++ [((1 : ℤ), (0 : ℚ))])).map
      AnkiCard.interval = some 43800 ∧
    (43800 : ℤ) > DEFAULT_CONFIG.max_interval := by
  decide

/-- C1 (amended): for every state reachable from the new-card initial
state by transitions with ratings in {0,1,2,3} under the default
configuration, `ease_factor >= min_ease` and `0 <= interval` hold; and a
single call whose input satisfies all three bounds preserves them all,
except that the interval upper bound `interval <= max_interval` is only
guaranteed when the call is not a review-phase Hard rating (that branch
multiplies the interval by 1.2 without clamping). -/
theorem C1_invariant_amended :
    (∀ c : AnkiCard, ReachableCard c →
      DEFAULT_CONFIG.min_ease ≤ c.ease_factor ∧ 0 ≤ c.interval) ∧
    (∀ (card : AnkiCard) (rating : ℤ) (now : ℚ) (c' : AnkiCard),
      DEFAULT_CONFIG.min_ease ≤ card.ease_factor →
      0 ≤ card.interval → card.interval ≤ DEFAULT_CONFIG.max_interval →
      calculate_next_review card rating DEFAULT_CONFIG now = some c' →
      DEFAULT_CONFIG.min_ease ≤ c'.ease_factor ∧ 0 ≤ c'.interval ∧
        (¬(card.is_learning = false ∧ rating = 1) →
          c'.interval ≤ DEFAULT_CONFIG.max_interval)) := by
  constructor
  · rintro c ⟨now0, events, hall, hrun⟩
    refine scheduleRun_preserves
      (fun c => DEFAULT_CONFIG.min_ease ≤ c.ease_factor ∧ 0 ≤ c.interval)
      ?_ events (initialAnkiCard now0) c hall ?_ hrun
    · intro card rating now c' hP _ hc
      exact calc_default_lower_bounds card rating now c' hP.1 hP.2 hc
    · constructor <;> norm_num [initialAnkiCard, mkAnkiCard, DEFAULT_CONFIG]
  · intro card rating now c' he hi hi2 hc
    obtain ⟨h1, h2⟩ := calc_default_lower_bounds card rating now c' he hi hc
    exact ⟨h1, h2, fun hnh =>
      calc_default_upper_bound card rating now c' he hi2 hnh hc⟩

/-- C1 witness: the preserved bounds at concrete inputs — the initial
state is reachable and within bounds, and one in-bounds review-phase
Good call stays within all bounds. -/
theorem C1_witness :
    (DEFAULT_CONFIG.min_ease ≤ (initialAnkiCard 0).ease_factor ∧
      0 ≤ (initialAnkiCard 0).interval) ∧
    (DEFAULT_CONFIG.min_ease ≤ (2.5 : ℚ) ∧ 0 ≤ (15 : ℤ) ∧
      ((15 : ℤ) ≤ DEFAULT_CONFIG.max_interval)) := by
  constructor
  · exact C1_invariant_amended.1 (initialAnkiCard 0) ⟨0, [], by simp, rfl⟩
  · have hc : calculate_next_review ⟨2.5, 6, 0, 0, false, 2⟩ 2 DEFAULT_CONFIG
        100 = some ⟨2.5, 15, 100 + 1440 * 15, 0, false, 3⟩ := by decide
    have h := C1_invariant_amended.2 ⟨2.5, 6, 0, 0, false, 2⟩ 2 100
      ⟨2.5, 15, 100 + 1440 * 15, 0, false, 3⟩ (by decide) (by decide)
      (by decide) hc
    exact ⟨h.1, h.2.1, h.2.2 (by simp)⟩

theorem sortDesc_head_max {α : Type} (l : List (α × ℚ)) (x : α × ℚ)
    (h : (l.insertionSort keyGE).head? = some x) :
    x ∈ l ∧ ∀ y ∈ l, y.2 ≤ x.2 := by
  have hs := List.sorted_insertionSort keyGE l
  have hp := List.perm_insertionSort keyGE l
  cases hl : l.insertionSort keyGE with
  | nil => rw [hl] at h; simp at h
  | cons a rest =>
    rw [hl] at h
    simp at h
    subst h
    rw [hl] at hs hp
    constructor
    · exact hp.subset (List.mem_cons_self _ _)
    · intro y hy
      have hy' : y ∈ a :: rest := hp.symm.subset hy
      rcases List.mem_cons.mp hy' with rfl | hy2
      · exact le_refl _
      · exact List.rel_of_sorted_cons hs y hy2

/-- C7: when a deck has no new and no due cards but at least one
not-yet-due card, `piocher_carte` returns a card whose due date is
minimal among the snapshot (soonest first); and on an empty snapshot it
returns `none` — a valid empty result, not an error. -/
theorem C7_selector_fallback :
    (∀ now : ℚ, piocher_carte [] now = none) ∧
    (∀ (cartes : List CarteProgress) (now : ℚ),
      cartes ≠ [] →
      (∀ c ∈ cartes, ∃ d, c.due_date = some d ∧ now < d) →
      ∃ c d, piocher_carte cartes now = some c ∧ c ∈ cartes ∧
        c.due_date = some d ∧
        ∀ c' ∈ cartes, ∀ d', c'.due_date = some d' → d ≤ d') := by
  constructor
  · intro now
    simp [piocher_carte]
  · intro cartes now hne hfut
    have hrev : cartes_a_reviser cartes now = [] := by
      rw [cartes_a_reviser, List.filterMap_eq_nil_iff]
      intro c hcmem
      obtain ⟨d, hd, hlt⟩ := hfut c hcmem
      rw [hd]
      simp [not_le.mpr hlt]
    have hfutne : cartes_futures cartes now ≠ [] := by
      cases hcs : cartes with
      | nil => exact absurd hcs hne
      | cons c0 t =>
        intro hcontra
        rw [cartes_futures, List.filterMap_eq_nil_iff] at hcontra
        obtain ⟨d, hd, -⟩ := hfut c0 (hcs ▸ List.mem_cons_self c0 t)
        have := hcontra c0 (hcs ▸ List.mem_cons_self c0 t)
        rw [hd] at this
        simp at this
    cases hh : ((cartes_futures cartes now).insertionSort keyGE).head? with
    | none =>
      rw [List.head?_eq_none_iff] at hh
      have hperm := List.perm_insertionSort keyGE (cartes_futures cartes now)
      rw [hh] at hperm
      exact absurd hperm.symm.eq_nil hfutne
    | some x =>
      obtain ⟨hxmem, hxmax⟩ := sortDesc_head_max _ x hh
      rw [cartes_futures, List.mem_filterMap] at hxmem
      obtain ⟨a, hamem, hax⟩ := hxmem
      obtain ⟨d, hd, -⟩ := hfut a hamem
      rw [hd] at hax
      have hx : x = (a, -((d - now) * 60 / 3600)) := (Option.some.inj hax).symm
      subst hx
      refine ⟨a, d, ?_, hamem, hd, ?_⟩
      · simp [piocher_carte, hne, hrev, hfutne, hh]
      · intro c' hc' d' hd'
        have hmem' : (c', -((d' - now) * 60 / 3600)) ∈
            cartes_futures cartes now := by
          rw [cartes_futures, List.mem_filterMap]
          exact ⟨c', hc', by rw [hd']⟩
        have hle : -((d' - now) * 60 / 3600) ≤ -((d - now) * 60 / 3600) :=
          hxmax _ hmem'
        linarith

/-- C7 witness: two not-yet-due cards; the sooner one (id 2, due 1500) is
returned. -/
theorem C7_witness :
    ∃ c d, piocher_carte [⟨1, some 2000⟩, ⟨2, some 1500⟩] 1000 = some c ∧
      c ∈ ([⟨1, some 2000⟩, ⟨2, some 1500⟩] : List CarteProgress) ∧
      c.due_date = some d ∧
      ∀ c' ∈ ([⟨1, some 2000⟩, ⟨2, some 1500⟩] : List CarteProgress),
        ∀ d', c'.due_date = some d' → d ≤ d' := by
  refine C7_selector_fallback.2 [⟨1, some 2000⟩, ⟨2, some 1500⟩] 1000
    (by decide) ?_
  intro c hc
  rcases List.mem_cons.mp hc with rfl | hc2
  · exact ⟨2000, rfl, by norm_num⟩
  rcases List.mem_cons.mp hc2 with rfl | hc3
  · exact ⟨1500, rfl, by norm_num⟩
  simp at hc3
